import Mathlib

/-!
# connector-sdk: the Invoker (`types/invoker.go`)

A shallow embedding of `Invoker.InvokeWithContext` and of its helper
`invokefunction`, followed by theorems about what is emitted on the
`Responses` channel and about the requests handed to the HTTP client.

Modelling conventions.

* The unbuffered channel `i.Responses` is modelled by the list of the values
  sent on it, oldest first (a receiver is assumed for every send).
* The HTTP client is a state-passing function: `c.Do` takes the request and the
  state of the outside world and gives back its outcome and the new state.
* The library functions the code calls (`url.Parse` inside `http.NewRequest`,
  the base64 encoder inside `SetBasicAuth`) are parameters, gathered in
  `Stdlib`.
* `(*TopicMap).Match` is a parameter: a function from a topic to the list of
  matched functions.
* A Go run-time panic is an explicit result.
* A run records, next to the values sent, the calls of `c.Do` it made (the request
  handed over and the outcome), so that statements can speak of the i-th call.
* `log.Printf` calls and the two deferred `Close` calls have no effect on the
  values modelled here and are left out.
* Pointers that the code dereferences without a check and that callers always
  supply (`ctx`, `message`, `i.Client`) are taken as non-nil.
* A response that `c.Do` returns with a nil error has a non-nil `Body`, as
  `net/http` guarantees for `(*http.Client).Do`.
-/

namespace Types

/-- A Go byte slice, `[]byte`. -/
abbrev Bytes := List UInt8

/-- An `http.Header`: keys with their list of values. -/
abbrev Header := List (String × List String)

/-- The value `Header.Set` produces: every earlier entry of the key is dropped and
the key is bound to the single value. -/
def Header.Set (h : Header) (key value : String) : Header :=
  (key, [value]) :: h.filter (fun kv => kv.1 != key)

/-- The values stored under a key, `Header.Values`; empty when the key is absent. -/
def Header.Values (h : Header) (key : String) : List String :=
  match h.lookup key with
  | some vs => vs
  | none => []

/-- A `context.Context`. `background` is `context.Background()`; a derived context
carries an identity and whether its `Done` channel is closed. -/
inductive Context where
  | background
  | derived (id : Nat) (done : Bool)
deriving DecidableEq, Repr

/-- Whether the context has been cancelled (or its deadline has passed). -/
def Context.isDone : Context → Bool
  | .background => false
  | .derived _ d => d

/-- A Go `error` value. `errorString` is what `fmt.Errorf` and the transport
produce; `wrap` is `errors.Wrap cause msg`. -/
inductive GoError where
  | errorString (s : String)
  | wrap (cause : GoError) (msg : String)
deriving DecidableEq, Repr

/-- The text of an error, `err.Error()`. -/
def GoError.Error : GoError → String
  | .errorString s => s
  | .wrap cause msg => msg ++ ": " ++ cause.Error

/-- The type `auth.BasicAuthCredentials`. -/
structure BasicAuthCredentials where
  User : String
  Password : String
deriving DecidableEq, Repr

/-- A `bytes.Reader`: the slice read from and the current reading index. -/
structure Reader where
  s : Bytes
  i : Nat
deriving DecidableEq, Repr

/-- The function `bytes.NewReader`: a reader positioned at the first byte. -/
def NewReader (b : Bytes) : Reader := ⟨b, 0⟩

/-- The part of an `http.Request` the code touches. `URL` keeps the string given to
`http.NewRequest`; `ctx` is the context the request carries. -/
structure Request where
  Method : String
  URL : String
  Header : Header
  Body : Option Reader
  ctx : Context
deriving DecidableEq, Repr

/-- Library functions the code relies on. `urlParse u` tells whether `url.Parse`
accepts `u`; `base64 s` is `base64.StdEncoding.EncodeToString([]byte(s))`. -/
structure Stdlib where
  urlParse : String → Bool
  base64 : String → String

/-- The function `http.NewRequest`: it builds the request with
`context.Background()` and an empty header, and gives `nil` (here `none`)
together with an error when the URL does not parse. -/
def NewRequest (lib : Stdlib) (method url : String) (body : Option Reader) : Option Request :=
  if lib.urlParse url then
    some { Method := method, URL := url, Header := [], Body := body, ctx := Context.background }
  else
    none

/-- The method `(*Request).WithContext`: a copy of the request carrying `ctx`. The
receiver is left as it was. -/
def Request.WithContext (r : Request) (ctx : Context) : Request :=
  { r with ctx := ctx }

/-- The method `(*Request).SetBasicAuth`, which sets the `Authorization` header of
the receiver. -/
def Request.SetBasicAuth (lib : Stdlib) (r : Request) (username password : String) : Request :=
  { r with Header := Header.Set r.Header "Authorization"
                        ("Basic " ++ lib.base64 (username ++ ":" ++ password)) }

/-- What `ioutil.ReadAll` gives on a response body. -/
inductive ReadResult where
  | ok (bytesOut : Bytes)
  | fail (readErr : GoError)
deriving DecidableEq, Repr

/-- The part of an `http.Response` the code reads, for a response that
`(*http.Client).Do` returned with a nil error. Such a response always has a
non-nil `Body` (a response without content has an empty one), so `Body` is the
outcome of reading it whole and the guard `res.Body != nil` of `invokefunction`
always passes. -/
structure Response where
  StatusCode : Int
  Header : Header
  Body : ReadResult
deriving DecidableEq, Repr

/-- The two results of `c.Do`: a transport error, or a response. -/
inductive DoResult where
  | err (doErr : GoError)
  | ok (res : Response)
deriving DecidableEq, Repr

/-- An `*http.Client` seen through `Do`: the outcome may depend on the request and
on the state `σ` of the outside world, which the call may change. -/
abbrev Client (σ : Type) := Request → σ → DoResult × σ

/-- One invocation of `c.Do`: the request handed over and what came back. -/
structure Call where
  request : Request
  result : DoResult
deriving DecidableEq, Repr

/-- The constant `http.StatusServiceUnavailable`. -/
def StatusServiceUnavailable : Int := 503

/-- The struct `Invoker`. The channel `Responses` is not a field here: the values
sent on it are collected in `Run.Responses`. -/
structure Invoker (σ : Type) where
  PrintResponse : Bool
  Client : Client σ
  GatewayURL : String
  Credentials : Option BasicAuthCredentials

/-- The struct `InvokerResponse`. The defaults are Go's zero values. -/
structure InvokerResponse where
  Context : Context
  Body : Option Bytes := none
  Header : Option Header := none
  Status : Int := 0
  Error : Option GoError := none
  Topic : String := ""
  Function : String := ""
deriving DecidableEq, Repr

/-- The constructor `NewInvoker`. -/
def NewInvoker {σ : Type} (gatewayURL : String) (client : Client σ) (printResponse : Bool)
    (credentials : Option BasicAuthCredentials) : Invoker σ :=
  { PrintResponse := printResponse, Client := client, GatewayURL := gatewayURL,
    Credentials := credentials }

/-- The resolver: `Match topic` is the list of functions subscribed to the topic. -/
structure TopicMap where
  Match : String → List String

/-- The four values `invokefunction` returns. -/
structure InvokeResult where
  body : Option Bytes
  statusCode : Int
  header : Option Header
  doErr : Option GoError
deriving DecidableEq, Repr

/-- How a Go function call ends: it returns, or it panics. -/
inductive Completion (α : Type) where
  | returned (a : α)
  | panicked (reason : String)
deriving DecidableEq, Repr

/-- The result of running `invokefunction`: how it ended, the state of the world
afterwards, and the calls of `c.Do` it made (none or one). -/
structure InvokeOutcome (σ : Type) where
  completion : Completion InvokeResult
  world : σ
  calls : List Call

/-- The function `invokefunction`. The error of `http.NewRequest` is dropped, so on a URL that does not parse
`httpReq` is nil and `httpReq.WithContext(ctx)` dereferences it. The value of
`httpReq.WithContext(ctx)` is dropped as well: the request handed to `c.Do` is
the one `http.NewRequest` built. The guard `res.Body != nil` always passes on a
response of `c.Do` (see `Response`), so the body is always read. -/
def invokefunction {σ : Type} (lib : Stdlib) (ctx : Context) (c : Client σ) (w : σ)
    (gwURL : String) (reader : Reader) (cred : Option BasicAuthCredentials) :
    InvokeOutcome σ :=
  match NewRequest lib "POST" gwURL (some reader) with
  | none =>
    { completion := .panicked "invalid memory address or nil pointer dereference",
      world := w, calls := [] }
  | some httpReq =>
    let _dropped := httpReq.WithContext ctx
    let httpReq := match cred with
      | some cr => httpReq.SetBasicAuth lib cr.User cr.Password
      | none => httpReq
    match c httpReq w with
    | (.err doErr, w') =>
      { completion := .returned ⟨none, StatusServiceUnavailable, none, some doErr⟩,
        world := w', calls := [⟨httpReq, .err doErr⟩] }
    | (.ok res, w') =>
      match res.Body with
      | .fail _ =>
        { completion := .returned ⟨none, StatusServiceUnavailable, none, none⟩,
          world := w', calls := [⟨httpReq, .ok res⟩] }
      | .ok bytesOut =>
        { completion := .returned ⟨some bytesOut, res.StatusCode, some res.Header, none⟩,
          world := w', calls := [⟨httpReq, .ok res⟩] }

/-- A run of `InvokeWithContext`: the values sent on `i.Responses` in order, the
calls of `c.Do` in order, the state of the world at the end, and whether the run
ended in a panic. -/
structure Run (σ : Type) where
  Responses : List InvokerResponse
  calls : List Call
  world : σ
  panicked : Bool

/-- The loop `for _, matchedFunction := range matchedFunctions` of
`InvokeWithContext`. A panic inside `invokefunction` ends the loop. -/
def dispatchLoop {σ : Type} (lib : Stdlib) (i : Invoker σ) (ctx : Context) (topic : String)
    (message : Bytes) : List String → σ → Run σ
  | [], w => { Responses := [], calls := [], world := w, panicked := false }
  | matchedFunction :: rest, w =>
    let gwURL := i.GatewayURL ++ "/" ++ matchedFunction
    let reader := NewReader message
    let out := invokefunction lib ctx i.Client w gwURL reader i.Credentials
    match out.completion with
    | .panicked _ => { Responses := [], calls := out.calls, world := out.world, panicked := true }
    | .returned r =>
      let sent : InvokerResponse :=
        match r.doErr with
        | some doErr =>
          { Context := ctx,
            Error := some (GoError.wrap doErr ("unable to invoke " ++ matchedFunction)) }
        | none =>
          { Context := ctx, Body := r.body, Status := r.statusCode, Header := r.header,
            Function := matchedFunction, Topic := topic }
      let tl := dispatchLoop lib i ctx topic message rest out.world
      { Responses := sent :: tl.Responses, calls := out.calls ++ tl.calls,
        world := tl.world, panicked := tl.panicked }

/-- The method `Invoker.InvokeWithContext`. -/
def InvokeWithContext {σ : Type} (lib : Stdlib) (i : Invoker σ) (ctx : Context)
    (topicMap : TopicMap) (topic : String) (message : Bytes) (w : σ) : Run σ :=
  let first : List InvokerResponse :=
    if message.length = 0 then
      [{ Context := ctx, Error := some (GoError.errorString "no message to send") }]
    else []
  let matchedFunctions := topicMap.Match topic
  let r := dispatchLoop lib i ctx topic message matchedFunctions w
  { r with Responses := first ++ r.Responses }

/-- The method `Invoker.Invoke`. -/
def Invoke {σ : Type} (lib : Stdlib) (i : Invoker σ) (topicMap : TopicMap) (topic : String)
    (message : Bytes) (w : σ) : Run σ :=
  InvokeWithContext lib i Context.background topicMap topic message w

/-- The request `invokefunction` hands to `c.Do` for the matched function `f`. -/
def outboundRequest {σ : Type} (lib : Stdlib) (i : Invoker σ) (message : Bytes) (f : String) :
    Request :=
  { Method := "POST", URL := i.GatewayURL ++ "/" ++ f,
    Header := match i.Credentials with
      | some cr => [("Authorization", ["Basic " ++ lib.base64 (cr.User ++ ":" ++ cr.Password)])]
      | none => [],
    Body := some ⟨message, 0⟩, ctx := Context.background }

/-- The values `invokefunction` returns after `c.Do` gave `d`. -/
def resultOf : DoResult → InvokeResult
  | .err doErr => ⟨none, StatusServiceUnavailable, none, some doErr⟩
  | .ok res =>
    match res.Body with
    | .fail _ => ⟨none, StatusServiceUnavailable, none, none⟩
    | .ok bytesOut => ⟨some bytesOut, res.StatusCode, some res.Header, none⟩

/-- The value `InvokeWithContext` sends for the matched function `f` after `c.Do`
gave `d`. -/
def emitted (ctx : Context) (topic f : String) (d : DoResult) : InvokerResponse :=
  match (resultOf d).doErr with
  | some doErr => { Context := ctx, Error := some (GoError.wrap doErr ("unable to invoke " ++ f)) }
  | none =>
    { Context := ctx, Body := (resultOf d).body, Status := (resultOf d).statusCode,
      Header := (resultOf d).header, Function := f, Topic := topic }

/-- The 64 characters of the standard base64 alphabet. -/
def base64Alphabet : List Char :=
  "ABCDEFGHIJKLMNOPQRSTUVWXYZabcdefghijklmnopqrstuvwxyz0123456789+/".toList

/-- The character for a 6-bit value. -/
def base64Char (n : Nat) : Char := base64Alphabet.getD n 'A'

/-- Standard base64 with padding, on a list of byte values. -/
def base64Encode : List Nat → List Char
  | a :: b :: c :: rest =>
    base64Char (a / 4) :: base64Char (a % 4 * 16 + b / 16) ::
      base64Char (b % 16 * 4 + c / 64) :: base64Char (c % 64) :: base64Encode rest
  | [a, b] =>
    [base64Char (a / 4), base64Char (a % 4 * 16 + b / 16), base64Char (b % 16 * 4), '=']
  | [a] => [base64Char (a / 4), base64Char (a % 4 * 16), '=', '=']
  | [] => []

/-- The check `stringContainsCTLByte` of `net/url` on one character: an ASCII
control character. -/
def isCTL (ch : Char) : Bool := ch.toNat < 32 || ch.toNat == 127

/-- The function `ishex` of `net/url`. -/
def ishex (ch : Char) : Bool :=
  (48 ≤ ch.toNat && ch.toNat ≤ 57) || (97 ≤ ch.toNat && ch.toNat ≤ 102) ||
    (65 ≤ ch.toNat && ch.toNat ≤ 70)

/-- The first loop of `unescape` in `net/url`: every `%` is followed by two
hexadecimal digits. -/
def escapesOK : List Char → Bool
  | [] => true
  | ch :: rest =>
    if ch = '%' then
      (match rest with
        | a :: b :: _ => ishex a && ishex b
        | _ => false) && escapesOK rest
    else escapesOK rest

/-- The function `getScheme` of `net/url` on the characters still to read, `seen`
being those read so far, last first. The result is the scheme and what follows
its colon; `none` is the error `missing protocol scheme`. -/
def getSchemeFrom (whole : List Char) : List Char → List Char → Option (List Char × List Char)
  | _, [] => some ([], whole)
  | seen, ch :: rest =>
    if ch.isAlpha then getSchemeFrom whole (ch :: seen) rest
    else if ch.isDigit || ch = '+' || ch = '-' || ch = '.' then
      if seen.isEmpty then some ([], whole) else getSchemeFrom whole (ch :: seen) rest
    else if ch = ':' then
      if seen.isEmpty then none else some (seen.reverse, rest)
    else some ([], whole)

/-- The function `validOptionalPort` of `net/url`: nothing, or a colon followed by
digits only. -/
def validOptionalPort : List Char → Bool
  | [] => true
  | ch :: digits => ch = ':' && digits.all Char.isDigit

/-- The part of the list that starts at the last occurrence of the character. -/
def fromLast (c : Char) : List Char → Option (List Char)
  | [] => none
  | ch :: rest =>
    match fromLast c rest with
    | some t => some t
    | none => if ch = c then some (ch :: rest) else none

/-- The checks of `parseHost` in `net/url` that are modelled: the port after the
host (after the closing bracket of an IP literal), the form of the percent
escapes, and no space in the host. -/
def hostOK (host : List Char) : Bool :=
  (if host.head? = some '[' then
      match fromLast ']' host with
      | none => false
      | some t => validOptionalPort (t.drop 1)
    else
      match fromLast ':' host with
      | none => true
      | some t => validOptionalPort t) &&
    escapesOK host && !host.contains ' '

/-- The checks of `url.Parse` that are modelled, in its order: the fragment is cut
off at the first `#`; a control character before the fragment is refused; the
scheme is split off (`missing protocol scheme`); the query is cut off at the
first `?` and not looked at; a rootless path with a scheme is opaque and
accepted; without a scheme the first path segment may not hold a colon; after
`//` the authority runs to the next `/` and its host is checked by `hostOK`; the
percent escapes of the authority, of the path and of the fragment must be well
formed. -/
def urlParseChecks (rawURL : String) : Bool :=
  let u := rawURL.toList.takeWhile (fun ch => ch != '#')
  let frag := (rawURL.toList.dropWhile (fun ch => ch != '#')).drop 1
  !u.any isCTL && escapesOK frag &&
    (u == ['*'] ||
      match getSchemeFrom u [] u with
      | none => false
      | some (scheme, afterScheme) =>
        let rest := afterScheme.takeWhile (fun ch => ch != '?')
        if rest.head? != some '/' then
          if !scheme.isEmpty then true
          else !(rest.takeWhile (fun ch => ch != '/')).contains ':' && escapesOK rest
        else if (!scheme.isEmpty || rest.take 3 != ['/', '/', '/']) &&
            rest.take 2 == ['/', '/'] then
          let authority := (rest.drop 2).takeWhile (fun ch => ch != '/')
          let path := (rest.drop 2).dropWhile (fun ch => ch != '/')
          let host := match fromLast '@' authority with
            | some t => t.drop 1
            | none => authority
          hostOK host && escapesOK authority && escapesOK path
        else escapesOK rest)

/-- A concrete library for the runs below. `urlParse` applies the checks of
`url.Parse` gathered in `urlParseChecks`; the validation of the user information,
of an IP literal and of the host characters other than the space is not
modelled, so it refuses only URLs that `url.Parse` refuses and may accept one
that `url.Parse` refuses. `base64` encodes the UTF-8 bytes of the string. -/
def goStdlib : Stdlib where
  urlParse := urlParseChecks
  base64 s := String.mk (base64Encode ((s.toList.flatMap String.utf8EncodeChar).map UInt8.toNat))

/-- The outcomes a client gives when it is handed the requests one after the other,
starting in the state `w`. -/
def answers {σ : Type} (c : Client σ) : List Request → σ → List DoResult
  | [], _ => []
  | req :: rest, w => (c req w).1 :: answers c rest (c req w).2

/-- A gateway that answers every request with status 200 and the body `{}`; the
state counts the requests served. -/
def gatewayOK : Client Nat :=
  fun _ n => (.ok { StatusCode := 200, Header := [("Content-Type", ["application/json"])],
                    Body := .ok [123, 125] }, n + 1)

/-- A gateway that cannot be reached: every call fails in transport. -/
def gatewayUnreachable : Client Unit :=
  fun _ _ => (.err (.errorString "dial tcp: connection refused"), ())

/-- A client that replays a list of outcomes, one per call; once the list is used
up every call fails. -/
def scripted : Client (List DoResult) :=
  fun _ script =>
    match script with
    | d :: rest => (d, rest)
    | [] => (.err (.errorString "EOF"), [])

/-- A client that honours the context of the request it is given: a request whose
context is done fails with the cancellation error, any other is answered 200. -/
def gatewayCtxAware : Client Unit :=
  fun req _ =>
    if req.ctx.isDone then (.err (.errorString "context canceled"), ())
    else (.ok { StatusCode := 200, Header := [], Body := .ok [123, 125] }, ())

/-- A resolver with the matches `fn-a` and `fn-b` for the topic `orders` and none
for any other topic. -/
def exTopicMap : TopicMap where
  Match t := if t = "orders" then ["fn-a", "fn-b"] else []

/-- An invoker without credentials in front of the gateway that answers 200. -/
def exInvoker : Invoker Nat := NewInvoker "http://gateway:8080" gatewayOK false none

/-- The outcome of a call answered 200 with the body `{}`. -/
def exOK : DoResult := .ok { StatusCode := 200, Header := [], Body := .ok [123, 125] }

/-- The outcome of a call answered 404 with the body `no`. -/
def exNotFound : DoResult :=
  .ok { StatusCode := 404, Header := [("Content-Type", ["text/plain"])], Body := .ok [110, 111] }

/-- The outcome of a call that failed in transport. -/
def exRefused : DoResult := .err (.errorString "dial tcp: connection refused")

/-- An invoker with credentials whose client replays a list of outcomes. -/
def exScripted : Invoker (List DoResult) :=
  NewInvoker "http://gateway:8080" scripted false (some ⟨"admin", "secret"⟩)

/-- An invoker without credentials whose gateway cannot be reached. -/
def exUnreachable : Invoker Unit :=
  NewInvoker "http://gateway:8080" gatewayUnreachable false none

/-- An invoker whose client honours the context of the request. -/
def exCtxAware : Invoker Unit :=
  NewInvoker "http://gateway:8080" gatewayCtxAware false none

/-- The outcome of a call answered 404 whose body cannot be read. -/
def exUnreadable : DoResult :=
  .ok { StatusCode := 404, Header := [("Content-Length", ["12"])],
        Body := .fail (.errorString "unexpected EOF") }

/-- The outcome of a call answered 204: a response without content, whose body is
empty. -/
def exNoContent : DoResult :=
  .ok { StatusCode := 204, Header := [("Date", ["Mon, 01 Jan 2019 00:00:00 GMT"])],
        Body := .ok [] }

/-- The response sent for the second match `fn-b` of the topic `orders` after a call
answered by `exNoContent`. -/
def exNoContentResponse : InvokerResponse :=
  { Context := Context.derived 1 false, Body := some [],
    Header := some [("Date", ["Mon, 01 Jan 2019 00:00:00 GMT"])], Status := 204,
    Error := none, Topic := "orders", Function := "fn-b" }

/-- A resolver with three matches for every topic. -/
def exThree : TopicMap where
  Match _ := ["fn-a", "fn-b", "fn-c"]

/-- A resolver with one match for every topic. -/
def exSingle : TopicMap where
  Match _ := ["fn-a"]

/-- A resolver whose second match holds a line feed, so that the gateway URL built
for it is rejected by `url.Parse`. -/
def exBadName : TopicMap where
  Match _ := ["fn-a", "bad\nname", "fn-b"]

/-! ## Theorems -/

theorem invokefunction_unbuildable {σ : Type} (lib : Stdlib) (ctx : Context) (c : Client σ)
    (w : σ) (gwURL : String) (reader : Reader) (cred : Option BasicAuthCredentials)
    (h : lib.urlParse gwURL = false) :
    ∃ reason, (invokefunction lib ctx c w gwURL reader cred).completion = .panicked reason ∧
      (invokefunction lib ctx c w gwURL reader cred).calls = [] ∧
      (invokefunction lib ctx c w gwURL reader cred).world = w := by
  simp [invokefunction, NewRequest, h]

theorem invokefunction_buildable {σ : Type} (lib : Stdlib) (ctx : Context) (i : Invoker σ)
    (w : σ) (message : Bytes) (f : String)
    (h : lib.urlParse (i.GatewayURL ++ "/" ++ f) = true) :
    let out := invokefunction lib ctx i.Client w (i.GatewayURL ++ "/" ++ f) (NewReader message)
      i.Credentials
    let d := i.Client (outboundRequest lib i message f) w
    out.completion = .returned (resultOf d.1) ∧
      out.calls = [⟨outboundRequest lib i message f, d.1⟩] ∧ out.world = d.2 := by
  intro out d
  rcases i with ⟨pr, cl, g, creds⟩
  cases creds with
  | none =>
    simp only [out, d, invokefunction, NewRequest, h, if_true, outboundRequest, NewReader]
    rcases hd : cl _ w with ⟨r, w'⟩
    cases r with
    | err e => simp [resultOf]
    | ok res =>
      rcases res with ⟨st, hd', body⟩
      cases body <;> simp [resultOf]
  | some cr =>
    simp only [out, d, invokefunction, NewRequest, h, if_true, outboundRequest, NewReader,
      Request.SetBasicAuth, Header.Set, List.filter_nil]
    rcases hd : cl _ w with ⟨r, w'⟩
    cases r with
    | err e => simp [resultOf]
    | ok res =>
      rcases res with ⟨st, hd', body⟩
      cases body <;> simp [resultOf]

theorem dispatchLoop_nil {σ : Type} (lib : Stdlib) (i : Invoker σ) (ctx : Context)
    (topic : String) (message : Bytes) (w : σ) :
    dispatchLoop lib i ctx topic message [] w =
      { Responses := [], calls := [], world := w, panicked := false } := rfl

theorem dispatchLoop_cons_unbuildable {σ : Type} (lib : Stdlib) (i : Invoker σ) (ctx : Context)
    (topic : String) (message : Bytes) (f : String) (rest : List String) (w : σ)
    (h : lib.urlParse (i.GatewayURL ++ "/" ++ f) = false) :
    dispatchLoop lib i ctx topic message (f :: rest) w =
      { Responses := [], calls := [], world := w, panicked := true } := by
  obtain ⟨reason, h1, h2, h3⟩ :=
    invokefunction_unbuildable lib ctx i.Client w (i.GatewayURL ++ "/" ++ f) (NewReader message)
      i.Credentials h
  simp only [dispatchLoop, h1, h2, h3]

theorem dispatchLoop_cons_buildable {σ : Type} (lib : Stdlib) (i : Invoker σ) (ctx : Context)
    (topic : String) (message : Bytes) (f : String) (rest : List String) (w : σ)
    (h : lib.urlParse (i.GatewayURL ++ "/" ++ f) = true) :
    dispatchLoop lib i ctx topic message (f :: rest) w =
      { Responses := emitted ctx topic f (i.Client (outboundRequest lib i message f) w).1 ::
          (dispatchLoop lib i ctx topic message rest
            (i.Client (outboundRequest lib i message f) w).2).Responses,
        calls := ⟨outboundRequest lib i message f,
            (i.Client (outboundRequest lib i message f) w).1⟩ ::
          (dispatchLoop lib i ctx topic message rest
            (i.Client (outboundRequest lib i message f) w).2).calls,
        world := (dispatchLoop lib i ctx topic message rest
            (i.Client (outboundRequest lib i message f) w).2).world,
        panicked := (dispatchLoop lib i ctx topic message rest
            (i.Client (outboundRequest lib i message f) w).2).panicked } := by
  obtain ⟨h1, h2, h3⟩ := invokefunction_buildable lib ctx i w message f h
  simp only [dispatchLoop, h1, h2, h3, emitted]
  cases (resultOf (i.Client (outboundRequest lib i message f) w).1).doErr <;> simp

/-- The responses of the loop are, position by position, the value sent for the
match at that position after the call at that position. -/
theorem dispatchLoop_responses {σ : Type} (lib : Stdlib) (i : Invoker σ) (ctx : Context)
    (topic : String) (message : Bytes) (fs : List String) (w : σ) :
    (dispatchLoop lib i ctx topic message fs w).Responses =
      List.zipWith (fun f c => emitted ctx topic f c.result) fs
        (dispatchLoop lib i ctx topic message fs w).calls := by
  induction fs generalizing w with
  | nil => simp [dispatchLoop_nil]
  | cons f rest ih =>
    cases h : lib.urlParse (i.GatewayURL ++ "/" ++ f) with
    | false => simp [dispatchLoop_cons_unbuildable lib i ctx topic message f rest w h]
    | true =>
      rw [dispatchLoop_cons_buildable lib i ctx topic message f rest w h]
      simp only [List.zipWith_cons_cons]
      rw [← ih]

/-- The requests handed to the client are those of the leading matches. -/
theorem dispatchLoop_requests {σ : Type} (lib : Stdlib) (i : Invoker σ) (ctx : Context)
    (topic : String) (message : Bytes) (fs : List String) (w : σ) :
    (dispatchLoop lib i ctx topic message fs w).calls.map Call.request =
      (fs.take (dispatchLoop lib i ctx topic message fs w).calls.length).map
        (outboundRequest lib i message) := by
  induction fs generalizing w with
  | nil => simp [dispatchLoop_nil]
  | cons f rest ih =>
    cases h : lib.urlParse (i.GatewayURL ++ "/" ++ f) with
    | false => simp [dispatchLoop_cons_unbuildable lib i ctx topic message f rest w h]
    | true =>
      rw [dispatchLoop_cons_buildable lib i ctx topic message f rest w h]
      simp only [List.map_cons, List.length_cons, List.take_succ_cons]
      rw [ih]

theorem dispatchLoop_calls_le {σ : Type} (lib : Stdlib) (i : Invoker σ) (ctx : Context)
    (topic : String) (message : Bytes) (fs : List String) (w : σ) :
    (dispatchLoop lib i ctx topic message fs w).calls.length ≤ fs.length := by
  induction fs generalizing w with
  | nil => simp [dispatchLoop_nil]
  | cons f rest ih =>
    cases h : lib.urlParse (i.GatewayURL ++ "/" ++ f) with
    | false => simp [dispatchLoop_cons_unbuildable lib i ctx topic message f rest w h]
    | true =>
      rw [dispatchLoop_cons_buildable lib i ctx topic message f rest w h]
      simpa using ih _

/-- The loop ends without a panic exactly when it made one call per match. -/
theorem dispatchLoop_panicked_iff {σ : Type} (lib : Stdlib) (i : Invoker σ) (ctx : Context)
    (topic : String) (message : Bytes) (fs : List String) (w : σ) :
    (dispatchLoop lib i ctx topic message fs w).panicked = false ↔
      (dispatchLoop lib i ctx topic message fs w).calls.length = fs.length := by
  induction fs generalizing w with
  | nil => simp [dispatchLoop_nil]
  | cons f rest ih =>
    cases h : lib.urlParse (i.GatewayURL ++ "/" ++ f) with
    | false => simp [dispatchLoop_cons_unbuildable lib i ctx topic message f rest w h]
    | true =>
      rw [dispatchLoop_cons_buildable lib i ctx topic message f rest w h]
      simpa using ih _

/-- When every request can be built the loop makes one call per match. -/
theorem dispatchLoop_calls_of_buildable {σ : Type} (lib : Stdlib) (i : Invoker σ)
    (ctx : Context) (topic : String) (message : Bytes) (fs : List String) (w : σ)
    (hall : ∀ f ∈ fs, lib.urlParse (i.GatewayURL ++ "/" ++ f) = true) :
    (dispatchLoop lib i ctx topic message fs w).calls.length = fs.length := by
  induction fs generalizing w with
  | nil => simp [dispatchLoop_nil]
  | cons f rest ih =>
    have h := hall f (List.mem_cons_self f rest)
    rw [dispatchLoop_cons_buildable lib i ctx topic message f rest w h]
    simpa using ih _ (fun g hg => hall g (List.mem_cons_of_mem f hg))

theorem dispatchLoop_responses_length {σ : Type} (lib : Stdlib) (i : Invoker σ) (ctx : Context)
    (topic : String) (message : Bytes) (fs : List String) (w : σ) :
    (dispatchLoop lib i ctx topic message fs w).Responses.length =
      (dispatchLoop lib i ctx topic message fs w).calls.length := by
  rw [dispatchLoop_responses, List.length_zipWith]
  exact Nat.min_eq_right (dispatchLoop_calls_le lib i ctx topic message fs w)

theorem dispatchLoop_response_of_call {σ : Type} (lib : Stdlib) (i : Invoker σ) (ctx : Context)
    (topic : String) (message : Bytes) (fs : List String) (w : σ) (k : Nat) (c : Call)
    (hc : (dispatchLoop lib i ctx topic message fs w).calls[k]? = some c) :
    ∃ f, fs[k]? = some f ∧
      (dispatchLoop lib i ctx topic message fs w).Responses[k]? =
        some (emitted ctx topic f c.result) := by
  induction fs generalizing w k with
  | nil => simp [dispatchLoop_nil] at hc
  | cons f rest ih =>
    cases h : lib.urlParse (i.GatewayURL ++ "/" ++ f) with
    | false => simp [dispatchLoop_cons_unbuildable lib i ctx topic message f rest w h] at hc
    | true =>
      rw [dispatchLoop_cons_buildable lib i ctx topic message f rest w h] at hc ⊢
      cases k with
      | zero =>
        simp only [List.getElem?_cons_zero, Option.some.injEq] at hc
        subst hc
        exact ⟨f, by simp, by simp⟩
      | succ n =>
        simp only [List.getElem?_cons_succ] at hc ⊢
        exact ih _ n hc

theorem dispatchLoop_call_of_response {σ : Type} (lib : Stdlib) (i : Invoker σ) (ctx : Context)
    (topic : String) (message : Bytes) (fs : List String) (w : σ) (k : Nat)
    (r : InvokerResponse)
    (hr : (dispatchLoop lib i ctx topic message fs w).Responses[k]? = some r) :
    ∃ f c, fs[k]? = some f ∧ (dispatchLoop lib i ctx topic message fs w).calls[k]? = some c ∧
      r = emitted ctx topic f c.result := by
  induction fs generalizing w k with
  | nil => simp [dispatchLoop_nil] at hr
  | cons f rest ih =>
    cases h : lib.urlParse (i.GatewayURL ++ "/" ++ f) with
    | false => simp [dispatchLoop_cons_unbuildable lib i ctx topic message f rest w h] at hr
    | true =>
      rw [dispatchLoop_cons_buildable lib i ctx topic message f rest w h] at hr ⊢
      cases k with
      | zero =>
        simp only [List.getElem?_cons_zero, Option.some.injEq] at hr
        exact ⟨f, _, by simp, List.getElem?_cons_zero, hr.symm⟩
      | succ n =>
        simp only [List.getElem?_cons_succ] at hr ⊢
        exact ih _ n hr

theorem InvokeWithContext_calls {σ : Type} (lib : Stdlib) (i : Invoker σ) (ctx : Context)
    (tm : TopicMap) (topic : String) (message : Bytes) (w : σ) :
    (InvokeWithContext lib i ctx tm topic message w).calls =
      (dispatchLoop lib i ctx topic message (tm.Match topic) w).calls := rfl

theorem InvokeWithContext_panicked {σ : Type} (lib : Stdlib) (i : Invoker σ) (ctx : Context)
    (tm : TopicMap) (topic : String) (message : Bytes) (w : σ) :
    (InvokeWithContext lib i ctx tm topic message w).panicked =
      (dispatchLoop lib i ctx topic message (tm.Match topic) w).panicked := rfl

theorem InvokeWithContext_responses_of_ne {σ : Type} (lib : Stdlib) (i : Invoker σ)
    (ctx : Context) (tm : TopicMap) (topic : String) (message : Bytes) (w : σ)
    (hmsg : message ≠ []) :
    (InvokeWithContext lib i ctx tm topic message w).Responses =
      (dispatchLoop lib i ctx topic message (tm.Match topic) w).Responses := by
  have hlen : message.length ≠ 0 := by simpa using hmsg
  simp [InvokeWithContext, hlen]

theorem InvokeWithContext_responses_of_empty {σ : Type} (lib : Stdlib) (i : Invoker σ)
    (ctx : Context) (tm : TopicMap) (topic : String) (w : σ) :
    (InvokeWithContext lib i ctx tm topic [] w).Responses =
      { Context := ctx, Error := some (GoError.errorString "no message to send") } ::
        (dispatchLoop lib i ctx topic [] (tm.Match topic) w).Responses := by
  simp [InvokeWithContext]

/-- The response sent for the call at position `k` of a run. -/
theorem InvokeWithContext_response_of_call {σ : Type} (lib : Stdlib) (i : Invoker σ)
    (ctx : Context) (tm : TopicMap) (topic : String) (message : Bytes) (w : σ) (k : Nat)
    (c : Call) (hc : (InvokeWithContext lib i ctx tm topic message w).calls[k]? = some c) :
    ∃ f, (tm.Match topic)[k]? = some f ∧
      (InvokeWithContext lib i ctx tm topic message w).Responses[
          k + (if message.length = 0 then 1 else 0)]? =
        some (emitted ctx topic f c.result) := by
  rw [InvokeWithContext_calls] at hc
  obtain ⟨f, hf, hr⟩ := dispatchLoop_response_of_call lib i ctx topic message _ w k c hc
  refine ⟨f, hf, ?_⟩
  cases message with
  | nil => rw [InvokeWithContext_responses_of_empty]; simpa using hr
  | cons b bs =>
    rw [InvokeWithContext_responses_of_ne lib i ctx tm topic (b :: bs) w (by simp)]
    simpa using hr

/-- Every response of a run is the one for the empty message or the one sent for a
call. -/
theorem InvokeWithContext_origin_of_response {σ : Type} (lib : Stdlib) (i : Invoker σ)
    (ctx : Context) (tm : TopicMap) (topic : String) (message : Bytes) (w : σ) (n : Nat)
    (r : InvokerResponse)
    (hr : (InvokeWithContext lib i ctx tm topic message w).Responses[n]? = some r) :
    (message = [] ∧ n = 0 ∧
        r = { Context := ctx, Error := some (GoError.errorString "no message to send") }) ∨
      ∃ k f c, n = k + (if message.length = 0 then 1 else 0) ∧ (tm.Match topic)[k]? = some f ∧
        (InvokeWithContext lib i ctx tm topic message w).calls[k]? = some c ∧
        r = emitted ctx topic f c.result := by
  cases message with
  | nil =>
    rw [InvokeWithContext_responses_of_empty] at hr
    cases n with
    | zero =>
      left
      simp only [List.getElem?_cons_zero, Option.some.injEq] at hr
      exact ⟨rfl, rfl, hr.symm⟩
    | succ m =>
      right
      simp only [List.getElem?_cons_succ] at hr
      obtain ⟨f, c, hf, hc, he⟩ := dispatchLoop_call_of_response lib i ctx topic [] _ w m r hr
      exact ⟨m, f, c, by simp, hf, hc, he⟩
  | cons b bs =>
    right
    rw [InvokeWithContext_responses_of_ne lib i ctx tm topic (b :: bs) w (by simp)] at hr
    obtain ⟨f, c, hf, hc, he⟩ :=
      dispatchLoop_call_of_response lib i ctx topic (b :: bs) _ w n r hr
    exact ⟨n, f, c, by simp, hf, hc, he⟩

theorem dispatchLoop_request_of_call {σ : Type} (lib : Stdlib) (i : Invoker σ) (ctx : Context)
    (topic : String) (message : Bytes) (fs : List String) (w : σ) (k : Nat) (c : Call)
    (hc : (dispatchLoop lib i ctx topic message fs w).calls[k]? = some c) :
    ∃ f, fs[k]? = some f ∧ c.request = outboundRequest lib i message f := by
  induction fs generalizing w k with
  | nil => simp [dispatchLoop_nil] at hc
  | cons f rest ih =>
    cases h : lib.urlParse (i.GatewayURL ++ "/" ++ f) with
    | false => simp [dispatchLoop_cons_unbuildable lib i ctx topic message f rest w h] at hc
    | true =>
      rw [dispatchLoop_cons_buildable lib i ctx topic message f rest w h] at hc
      cases k with
      | zero =>
        simp only [List.getElem?_cons_zero, Option.some.injEq] at hc
        subst hc
        exact ⟨f, by simp, rfl⟩
      | succ n =>
        simp only [List.getElem?_cons_succ] at hc ⊢
        exact ih _ n hc

/-- Every request handed to the client carries `context.Background()`, whatever
context `InvokeWithContext` was given. -/
theorem InvokeWithContext_request_ctx {σ : Type} (lib : Stdlib) (i : Invoker σ)
    (ctx : Context) (tm : TopicMap) (topic : String) (message : Bytes) (w : σ) (c : Call)
    (hc : c ∈ (InvokeWithContext lib i ctx tm topic message w).calls) :
    c.request.ctx = Context.background := by
  obtain ⟨k, hk⟩ := List.getElem?_of_mem hc
  rw [InvokeWithContext_calls] at hk
  obtain ⟨f, _, hreq⟩ := dispatchLoop_request_of_call lib i ctx topic message _ w k c hk
  rw [hreq]
  rfl

/-- With an empty message, a run that makes one call per match sends the
empty-message error first and then one response per match, in order. -/
theorem InvokeWithContext_empty_message {σ : Type} (lib : Stdlib) (i : Invoker σ)
    (ctx : Context) (tm : TopicMap) (topic : String) (w : σ)
    (hcalls : (InvokeWithContext lib i ctx tm topic [] w).calls.length =
      (tm.Match topic).length) :
    (InvokeWithContext lib i ctx tm topic [] w).Responses.length =
        1 + (tm.Match topic).length ∧
      (InvokeWithContext lib i ctx tm topic [] w).Responses[0]? =
        some { Context := ctx, Body := none, Header := none, Status := 0,
               Error := some (GoError.errorString "no message to send"),
               Topic := "", Function := "" } ∧
      (InvokeWithContext lib i ctx tm topic [] w).Responses.tail =
        List.zipWith (fun f c => emitted ctx topic f c.result) (tm.Match topic)
          (InvokeWithContext lib i ctx tm topic [] w).calls := by
  rw [InvokeWithContext_calls] at hcalls
  rw [InvokeWithContext_responses_of_empty, InvokeWithContext_calls]
  refine ⟨?_, by simp, ?_⟩
  · rw [List.length_cons, dispatchLoop_responses_length, hcalls, Nat.add_comm]
  · rw [List.tail_cons, ← dispatchLoop_responses]

/-- When every request can be built, the loop hands the client one request per
match, in order, and sends for every match the response that belongs to the
outcome the client gave. -/
theorem dispatchLoop_of_buildable {σ : Type} (lib : Stdlib) (i : Invoker σ) (ctx : Context)
    (topic : String) (message : Bytes) (fs : List String) (w : σ)
    (hall : ∀ f ∈ fs, lib.urlParse (i.GatewayURL ++ "/" ++ f) = true) :
    (dispatchLoop lib i ctx topic message fs w).calls =
        List.zipWith Call.mk (fs.map (outboundRequest lib i message))
          (answers i.Client (fs.map (outboundRequest lib i message)) w) ∧
      (dispatchLoop lib i ctx topic message fs w).Responses =
        List.zipWith (emitted ctx topic) fs
          (answers i.Client (fs.map (outboundRequest lib i message)) w) ∧
      (dispatchLoop lib i ctx topic message fs w).panicked = false := by
  induction fs generalizing w with
  | nil => simp [dispatchLoop_nil, answers]
  | cons f rest ih =>
    have h := hall f (List.mem_cons_self f rest)
    obtain ⟨h1, h2, h3⟩ := ih (i.Client (outboundRequest lib i message f) w).2
      (fun g hg => hall g (List.mem_cons_of_mem f hg))
    rw [dispatchLoop_cons_buildable lib i ctx topic message f rest w h]
    simp only [List.map_cons, answers, List.zipWith_cons_cons, h1, h2, h3, and_self]

theorem answers_length {σ : Type} (c : Client σ) (reqs : List Request) (w : σ) :
    (answers c reqs w).length = reqs.length := by
  induction reqs generalizing w with
  | nil => rfl
  | cons r rest ih => simp [answers, ih]

/-- A run in which every request can be built: what is sent is the empty-message
error, if the message is empty, followed by the response for every match, in
order, each determined by the outcome the client gave for the request of that
match. -/
theorem InvokeWithContext_of_buildable {σ : Type} (lib : Stdlib) (i : Invoker σ)
    (ctx : Context) (tm : TopicMap) (topic : String) (message : Bytes) (w : σ)
    (hall : ∀ f ∈ tm.Match topic, lib.urlParse (i.GatewayURL ++ "/" ++ f) = true) :
    (InvokeWithContext lib i ctx tm topic message w).Responses =
        (if message.length = 0 then
            [{ Context := ctx, Error := some (GoError.errorString "no message to send") }]
          else []) ++
          List.zipWith (emitted ctx topic) (tm.Match topic)
            (answers i.Client ((tm.Match topic).map (outboundRequest lib i message)) w) ∧
      (InvokeWithContext lib i ctx tm topic message w).calls =
        List.zipWith Call.mk ((tm.Match topic).map (outboundRequest lib i message))
          (answers i.Client ((tm.Match topic).map (outboundRequest lib i message)) w) ∧
      (InvokeWithContext lib i ctx tm topic message w).panicked = false := by
  obtain ⟨h1, h2, h3⟩ := dispatchLoop_of_buildable lib i ctx topic message _ w hall
  refine ⟨?_, ?_, ?_⟩
  · simp only [InvokeWithContext, h2]
  · rw [InvokeWithContext_calls, h1]
  · rw [InvokeWithContext_panicked, h3]

/-- C1. For a non-empty message, when the request of every match can be built and
the client answers each of these N requests, handed to it in the order of the
matches, with a response whose body can be read (every one of the N dispatches
succeeds in transport and in reading the body): the client is called with
exactly these requests and gives these answers, exactly N responses are sent, and
the response at position `k` has the `k`-th match as `Function`, the given topic,
the status code, the body bytes and the header of the `k`-th answer of the
client, and no error. -/
theorem C1_all_dispatches_succeed {σ : Type} (lib : Stdlib) (i : Invoker σ) (ctx : Context)
    (tm : TopicMap) (topic : String) (message : Bytes) (w : σ)
    (hmsg : message ≠ [])
    (hbuild : ∀ f ∈ tm.Match topic, lib.urlParse (i.GatewayURL ++ "/" ++ f) = true)
    (hok : ∀ d ∈ answers i.Client ((tm.Match topic).map (outboundRequest lib i message)) w,
      ∃ (st : Int) (hd : Header) (b : Bytes), d = DoResult.ok ⟨st, hd, ReadResult.ok b⟩) :
    (InvokeWithContext lib i ctx tm topic message w).calls =
        List.zipWith Call.mk ((tm.Match topic).map (outboundRequest lib i message))
          (answers i.Client ((tm.Match topic).map (outboundRequest lib i message)) w) ∧
      (InvokeWithContext lib i ctx tm topic message w).Responses.length =
        (tm.Match topic).length ∧
      ∀ (k : Nat) (f : String), (tm.Match topic)[k]? = some f →
        ∃ (st : Int) (hd : Header) (b : Bytes),
          (answers i.Client ((tm.Match topic).map (outboundRequest lib i message)) w)[k]? =
            some (DoResult.ok ⟨st, hd, ReadResult.ok b⟩) ∧
          (InvokeWithContext lib i ctx tm topic message w).Responses[k]? =
            some { Context := ctx, Body := some b, Header := some hd, Status := st,
                   Error := none, Topic := topic, Function := f } := by
  have hne : message.length ≠ 0 := by simpa using hmsg
  obtain ⟨hresp, hcalls, _⟩ := InvokeWithContext_of_buildable lib i ctx tm topic message w hbuild
  simp only [hne, if_false, List.nil_append] at hresp
  have hlen := answers_length i.Client ((tm.Match topic).map (outboundRequest lib i message)) w
  rw [List.length_map] at hlen
  refine ⟨hcalls, ?_, ?_⟩
  · rw [hresp, List.length_zipWith, hlen, Nat.min_self]
  · intro k f hf
    have hk : k < (answers i.Client
        ((tm.Match topic).map (outboundRequest lib i message)) w).length := by
      rw [hlen]
      exact (List.getElem?_eq_some.mp hf).1
    obtain ⟨st, hd, b, hd'⟩ := hok _ (List.getElem_mem hk)
    have hans : (answers i.Client
        ((tm.Match topic).map (outboundRequest lib i message)) w)[k]? =
        some (DoResult.ok ⟨st, hd, ReadResult.ok b⟩) := by
      rw [List.getElem?_eq_getElem hk, hd']
    refine ⟨st, hd, b, hans, ?_⟩
    rw [hresp, List.getElem?_zipWith, hf, hans]
    simp [emitted, resultOf]

/-- C1 at two matches whose calls are answered differently, 200 with the body `{}`
for `fn-a` and 404 with the body `no` for `fn-b`: each response carries the
status and the body of its own call, and no error. -/
theorem C1_all_dispatches_succeed_witness :
    (InvokeWithContext goStdlib exScripted (Context.derived 1 false) exTopicMap "orders"
        [123, 34, 105, 100, 34, 58, 49, 125] [exOK, exNotFound]).Responses =
      [ { Context := Context.derived 1 false, Body := some [123, 125], Header := some [],
          Status := 200, Error := none, Topic := "orders", Function := "fn-a" },
        { Context := Context.derived 1 false, Body := some [110, 111],
          Header := some [("Content-Type", ["text/plain"])], Status := 404,
          Error := none, Topic := "orders", Function := "fn-b" } ] ∧
    ∃ (st : Int) (hd : Header) (b : Bytes),
      (answers exScripted.Client ((exTopicMap.Match "orders").map
          (outboundRequest goStdlib exScripted [123, 34, 105, 100, 34, 58, 49, 125]))
          [exOK, exNotFound])[1]? =
        some (DoResult.ok ⟨st, hd, ReadResult.ok b⟩) ∧
      (InvokeWithContext goStdlib exScripted (Context.derived 1 false) exTopicMap "orders"
        [123, 34, 105, 100, 34, 58, 49, 125] [exOK, exNotFound]).Responses[1]? =
        some { Context := Context.derived 1 false, Body := some b, Header := some hd,
               Status := st, Error := none, Topic := "orders", Function := "fn-b" } :=
  ⟨by decide,
   (C1_all_dispatches_succeed goStdlib exScripted (Context.derived 1 false) exTopicMap "orders"
     [123, 34, 105, 100, 34, 58, 49, 125] [exOK, exNotFound] (by decide) (by decide)
     (fun d hd => by
       have hans : answers exScripted.Client ((exTopicMap.Match "orders").map
           (outboundRequest goStdlib exScripted [123, 34, 105, 100, 34, 58, 49, 125]))
           [exOK, exNotFound] =
           [DoResult.ok ⟨200, [], ReadResult.ok [123, 125]⟩,
            DoResult.ok ⟨404, [("Content-Type", ["text/plain"])], ReadResult.ok [110, 111]⟩] := by
         decide
       rw [hans] at hd
       simp only [List.mem_cons, List.mem_singleton, List.not_mem_nil, or_false] at hd
       rcases hd with rfl | rfl <;> exact ⟨_, _, _, rfl⟩)).2.2 1 "fn-b" (by decide)⟩

/-- The scenario of the specification: matches `fn-a` and `fn-b` for the topic
`orders`, a gateway answering 200 with the body `{}`, and the message `{"id":1}`
give two responses, for `fn-a` and `fn-b`, both with status 200 and body `{}`. -/
theorem InvokeWithContext_orders_scenario :
    (InvokeWithContext goStdlib exInvoker (Context.derived 1 false) exTopicMap "orders"
        [123, 34, 105, 100, 34, 58, 49, 125] 0).Responses =
      [ { Context := Context.derived 1 false, Body := some [123, 125],
          Header := some [("Content-Type", ["application/json"])], Status := 200,
          Error := none, Topic := "orders", Function := "fn-a" },
        { Context := Context.derived 1 false, Body := some [123, 125],
          Header := some [("Content-Type", ["application/json"])], Status := 200,
          Error := none, Topic := "orders", Function := "fn-b" } ] := by
  decide

/-- C2 at the matches `fn-a`, `bad\nname`, `fn-b`, a non-empty message and a client
whose first call is refused and whose later calls are answered: the error
response for `fn-a` is sent, then the request for `bad\nname` cannot be built and
the run panics. One response is sent for three matches; the responses of the
second and third position are suppressed. -/
theorem C2_unbuildable_match_suppresses_responses :
    (InvokeWithContext goStdlib exScripted (Context.derived 1 false) exBadName "orders" [1]
        [exRefused, exOK, exOK]).Responses =
      [{ Context := Context.derived 1 false, Body := none, Header := none, Status := 0,
         Error := some (GoError.wrap (GoError.errorString "dial tcp: connection refused")
           "unable to invoke fn-a"),
         Topic := "", Function := "" }] ∧
    (InvokeWithContext goStdlib exScripted (Context.derived 1 false) exBadName "orders" [1]
        [exRefused, exOK, exOK]).panicked = true ∧
    (InvokeWithContext goStdlib exScripted (Context.derived 1 false) exBadName "orders" [1]
        [exRefused, exOK, exOK]).Responses.length ≠ (exBadName.Match "orders").length := by
  decide

/-- C3, the claim fails: with the single match `fn-a` and an unreachable gateway the
one response sent has its error set and no function, and its status is 0, not
503. -/
theorem C3_counterexample :
    (InvokeWithContext goStdlib exUnreachable (Context.derived 1 false) exSingle "orders" [1]
        ()).calls.map Call.result = [exRefused] ∧
    (InvokeWithContext goStdlib exUnreachable (Context.derived 1 false) exSingle "orders" [1]
        ()).Responses =
      [{ Context := Context.derived 1 false, Body := none, Header := none, Status := 0,
         Error := some (GoError.wrap (GoError.errorString "dial tcp: connection refused")
           "unable to invoke fn-a"),
         Topic := "", Function := "" }] ∧
    ¬ ∀ r ∈ (InvokeWithContext goStdlib exUnreachable (Context.derived 1 false) exSingle
        "orders" [1] ()).Responses, r.Status = 503 := by
  decide

/-- C3 as amended. For a call that failed in transport with the error `e`, the
response sent for its match `f` carries the context, the error `e` wrapped with
`unable to invoke f`, and nothing else: no function, no topic, no body, no header,
and the status 0. -/
theorem C3_transport_failure_response {σ : Type} (lib : Stdlib) (i : Invoker σ)
    (ctx : Context) (tm : TopicMap) (topic : String) (message : Bytes) (w : σ)
    (k : Nat) (req : Request) (e : GoError)
    (hc : (InvokeWithContext lib i ctx tm topic message w).calls[k]? =
      some ⟨req, DoResult.err e⟩) :
    ∃ f, (tm.Match topic)[k]? = some f ∧
      (InvokeWithContext lib i ctx tm topic message w).Responses[
          k + (if message.length = 0 then 1 else 0)]? =
        some { Context := ctx, Body := none, Header := none, Status := 0,
               Error := some (GoError.wrap e ("unable to invoke " ++ f)),
               Topic := "", Function := "" } := by
  obtain ⟨f, hf, hr⟩ := InvokeWithContext_response_of_call lib i ctx tm topic message w k _ hc
  exact ⟨f, hf, by simpa [emitted, resultOf] using hr⟩

/-- C3 as amended, at the unreachable gateway with the single match `fn-a`. -/
theorem C3_transport_failure_response_witness :
    (InvokeWithContext goStdlib exUnreachable (Context.derived 1 false) exSingle "orders" [1]
        ()).calls[0]? =
      some ⟨outboundRequest goStdlib exUnreachable [1] "fn-a", exRefused⟩ ∧
    ∃ f, (exSingle.Match "orders")[0]? = some f ∧
      (InvokeWithContext goStdlib exUnreachable (Context.derived 1 false) exSingle "orders" [1]
          ()).Responses[0 + (if ([1] : Bytes).length = 0 then 1 else 0)]? =
        some { Context := Context.derived 1 false, Body := none, Header := none, Status := 0,
               Error := some (GoError.wrap (GoError.errorString "dial tcp: connection refused")
                 ("unable to invoke " ++ f)),
               Topic := "", Function := "" } :=
  ⟨by decide,
   C3_transport_failure_response goStdlib exUnreachable (Context.derived 1 false) exSingle
     "orders" [1] () 0 (outboundRequest goStdlib exUnreachable [1] "fn-a")
     (GoError.errorString "dial tcp: connection refused") (by decide)⟩

/-- C4 at an empty message and the three matches `fn-a`, `bad\nname`, `fn-b`: the
empty-message error is sent first and `fn-a` is dispatched, then the request for
`bad\nname` cannot be built and the run panics: 2 responses are sent, not 1 + 3. -/
theorem C4_empty_message_unbuildable_match :
    (InvokeWithContext goStdlib exInvoker (Context.derived 1 false) exBadName "orders" []
        0).Responses =
      [{ Context := Context.derived 1 false, Body := none, Header := none, Status := 0,
         Error := some (GoError.errorString "no message to send"), Topic := "",
         Function := "" },
       { Context := Context.derived 1 false, Body := some [123, 125],
         Header := some [("Content-Type", ["application/json"])], Status := 200,
         Error := none, Topic := "orders", Function := "fn-a" }] ∧
    (InvokeWithContext goStdlib exInvoker (Context.derived 1 false) exBadName "orders" []
        0).panicked = true ∧
    (InvokeWithContext goStdlib exInvoker (Context.derived 1 false) exBadName "orders" []
        0).Responses.length ≠ 1 + (exBadName.Match "orders").length := by
  decide

/-- C5 at a context that is already cancelled and a client that fails every request
whose context is done: both requests handed to the client carry
`context.Background()`, not the context given, and both calls are answered
without an error. -/
theorem C5_context_not_attached :
    (Context.derived 1 true).isDone = true ∧
    (InvokeWithContext goStdlib exCtxAware (Context.derived 1 true) exTopicMap "orders" [1]
        ()).calls.map (fun c => c.request.ctx) = [Context.background, Context.background] ∧
    (InvokeWithContext goStdlib exCtxAware (Context.derived 1 true) exTopicMap "orders" [1]
        ()).Responses.map (fun r => (r.Function, r.Status, r.Error)) =
      [("fn-a", 200, none), ("fn-b", 200, none)] := by
  decide

/-- C6 at the matches `fn-a`, `bad\nname`, `fn-b` and a non-empty message: `fn-a` is
dispatched, then the request for `bad\nname` cannot be built and the run panics.
No response is sent for `bad\nname`, and `fn-b` is never dispatched. -/
theorem C6_build_failure_panics :
    goStdlib.urlParse ("http://gateway:8080" ++ "/" ++ "bad\nname") = false ∧
    (InvokeWithContext goStdlib exInvoker (Context.derived 1 false) exBadName "orders" [1]
        0).panicked = true ∧
    (InvokeWithContext goStdlib exInvoker (Context.derived 1 false) exBadName "orders" [1]
        0).Responses =
      [{ Context := Context.derived 1 false, Body := some [123, 125],
         Header := some [("Content-Type", ["application/json"])], Status := 200,
         Error := none, Topic := "orders", Function := "fn-a" }] ∧
    (InvokeWithContext goStdlib exInvoker (Context.derived 1 false) exBadName "orders" [1]
        0).calls.map (fun c => c.request.URL) = ["http://gateway:8080/fn-a"] := by
  decide

/-- C7. Every request handed to the client has, when the invoker has credentials,
the single header `Authorization: Basic base64(user:password)` built from them,
and has no header at all when the invoker has none. -/
theorem C7_basic_auth_header {σ : Type} (lib : Stdlib) (i : Invoker σ) (ctx : Context)
    (tm : TopicMap) (topic : String) (message : Bytes) (w : σ) (c : Call)
    (hc : c ∈ (InvokeWithContext lib i ctx tm topic message w).calls) :
    (∀ cr, i.Credentials = some cr →
        c.request.Header =
          [("Authorization", ["Basic " ++ lib.base64 (cr.User ++ ":" ++ cr.Password)])] ∧
        Header.Values c.request.Header "Authorization" =
          ["Basic " ++ lib.base64 (cr.User ++ ":" ++ cr.Password)]) ∧
      (i.Credentials = none →
        c.request.Header = [] ∧ Header.Values c.request.Header "Authorization" = []) := by
  obtain ⟨k, hk⟩ := List.getElem?_of_mem hc
  rw [InvokeWithContext_calls] at hk
  obtain ⟨f, _, hreq⟩ := dispatchLoop_request_of_call lib i ctx topic message _ w k c hk
  rw [hreq]
  constructor
  · intro cr hcr
    simp [outboundRequest, hcr, Header.Values, List.lookup]
  · intro hnone
    simp [outboundRequest, hnone, Header.Values, List.lookup]

/-- C7 at the credentials `admin` and `secret`: the request for `fn-a` carries
`Authorization: Basic YWRtaW46c2VjcmV0`. -/
theorem C7_basic_auth_header_witness :
    (⟨outboundRequest goStdlib exScripted [1] "fn-a", exOK⟩ : Call) ∈
      (InvokeWithContext goStdlib exScripted (Context.derived 1 false) exTopicMap "orders" [1]
        [exOK, exOK]).calls ∧
    (outboundRequest goStdlib exScripted [1] "fn-a").Header =
      [("Authorization", ["Basic YWRtaW46c2VjcmV0"])] ∧
    ((⟨outboundRequest goStdlib exScripted [1] "fn-a", exOK⟩ : Call).request.Header =
        [("Authorization", ["Basic " ++ goStdlib.base64 ("admin" ++ ":" ++ "secret")])] ∧
      Header.Values (⟨outboundRequest goStdlib exScripted [1] "fn-a", exOK⟩ : Call).request.Header
          "Authorization" =
        ["Basic " ++ goStdlib.base64 ("admin" ++ ":" ++ "secret")]) :=
  ⟨by decide, by decide,
   (C7_basic_auth_header goStdlib exScripted (Context.derived 1 false) exTopicMap "orders" [1]
     [exOK, exOK] ⟨outboundRequest goStdlib exScripted [1] "fn-a", exOK⟩ (by decide)).1
     ⟨"admin", "secret"⟩ rfl⟩

/-- C8. Every request handed to the client is a POST to the gateway URL followed by
`/` and the match at the position of the call, and its body is a reader over the
whole message positioned at its first byte; and when every such URL can be parsed
there is one request per match. -/
theorem C8_request_shape {σ : Type} (lib : Stdlib) (i : Invoker σ) (ctx : Context)
    (tm : TopicMap) (topic : String) (message : Bytes) (w : σ) :
    (∀ (k : Nat) (c : Call),
        (InvokeWithContext lib i ctx tm topic message w).calls[k]? = some c →
        ∃ f, (tm.Match topic)[k]? = some f ∧ c.request.Method = "POST" ∧
          c.request.URL = i.GatewayURL ++ "/" ++ f ∧
          c.request.Body = some { s := message, i := 0 }) ∧
      ((∀ f ∈ tm.Match topic, lib.urlParse (i.GatewayURL ++ "/" ++ f) = true) →
        (InvokeWithContext lib i ctx tm topic message w).calls.length =
          (tm.Match topic).length) := by
  constructor
  · intro k c hc
    rw [InvokeWithContext_calls] at hc
    obtain ⟨f, hf, hreq⟩ := dispatchLoop_request_of_call lib i ctx topic message _ w k c hc
    exact ⟨f, hf, by rw [hreq]; rfl, by rw [hreq]; rfl, by rw [hreq]; rfl⟩
  · intro hall
    rw [InvokeWithContext_calls]
    exact dispatchLoop_calls_of_buildable lib i ctx topic message _ w hall

/-- C8 at the matches `fn-a` and `fn-b` and the message `{"id":1}`: the second
request is a POST to `http://gateway:8080/fn-b` with the whole message. -/
theorem C8_request_shape_witness :
    (InvokeWithContext goStdlib exInvoker (Context.derived 1 false) exTopicMap "orders"
        [123, 34, 105, 100, 34, 58, 49, 125] 0).calls.map Call.request =
      [{ Method := "POST", URL := "http://gateway:8080/fn-a", Header := [],
         Body := some { s := [123, 34, 105, 100, 34, 58, 49, 125], i := 0 },
         ctx := Context.background },
       { Method := "POST", URL := "http://gateway:8080/fn-b", Header := [],
         Body := some { s := [123, 34, 105, 100, 34, 58, 49, 125], i := 0 },
         ctx := Context.background }] ∧
    (InvokeWithContext goStdlib exInvoker (Context.derived 1 false) exTopicMap "orders"
        [123, 34, 105, 100, 34, 58, 49, 125] 0).calls.length =
      (exTopicMap.Match "orders").length :=
  ⟨by decide,
   (C8_request_shape goStdlib exInvoker (Context.derived 1 false) exTopicMap "orders"
     [123, 34, 105, 100, 34, 58, 49, 125] 0).2 (by decide)⟩

/-- C9. When the call made by `invokefunction` succeeded in transport and reading
the body of the response failed, `invokefunction` returns no body, the status
503, no header and no error, whatever the status code of the response; and the
response `InvokeWithContext` sends for such a call has no error, the match as
`Function`, the topic, no body, no header and the status 503. -/
theorem C9_body_read_failure {σ : Type} (lib : Stdlib) (i : Invoker σ) (ctx : Context)
    (tm : TopicMap) (topic : String) (message : Bytes) (w : σ) :
    (∀ (gwURL : String) (reader : Reader) (req : Request) (st : Int) (hd : Header)
        (readErr : GoError),
        (invokefunction lib ctx i.Client w gwURL reader i.Credentials).calls =
          [⟨req, DoResult.ok ⟨st, hd, ReadResult.fail readErr⟩⟩] →
        (invokefunction lib ctx i.Client w gwURL reader i.Credentials).completion =
          Completion.returned { body := none, statusCode := 503, header := none,
                                doErr := none }) ∧
      (∀ (k : Nat) (req : Request) (st : Int) (hd : Header) (readErr : GoError),
        (InvokeWithContext lib i ctx tm topic message w).calls[k]? =
          some ⟨req, DoResult.ok ⟨st, hd, ReadResult.fail readErr⟩⟩ →
        ∃ f, (tm.Match topic)[k]? = some f ∧
          (InvokeWithContext lib i ctx tm topic message w).Responses[
              k + (if message.length = 0 then 1 else 0)]? =
            some { Context := ctx, Body := none, Header := none, Status := 503,
                   Error := none, Topic := topic, Function := f }) := by
  constructor
  · intro gwURL reader req st hd readErr hcall
    unfold invokefunction at hcall ⊢
    cases hreq : NewRequest lib "POST" gwURL (some reader) with
    | none => simp [hreq] at hcall
    | some httpReq =>
      simp only [hreq] at hcall ⊢
      generalize (match i.Credentials with
        | some cr => httpReq.SetBasicAuth lib cr.User cr.Password
        | none => httpReq) = sentReq at hcall ⊢
      rcases hdo : i.Client sentReq w with ⟨d, w'⟩
      rw [hdo] at hcall
      cases d with
      | err e => simp at hcall
      | ok res =>
        rcases res with ⟨st', hd', body⟩
        cases body with
        | ok b => simp at hcall
        | fail e => simp [StatusServiceUnavailable]
  · intro k req st hd readErr hc
    obtain ⟨f, hf, hr⟩ := InvokeWithContext_response_of_call lib i ctx tm topic message w k _ hc
    exact ⟨f, hf, by simpa [emitted, resultOf, StatusServiceUnavailable] using hr⟩

/-- C9 at a call answered 404 whose body cannot be read: the response for `fn-a` has
the status 503, no body, no header and no error. -/
theorem C9_body_read_failure_witness :
    (InvokeWithContext goStdlib exScripted (Context.derived 1 false) exSingle "orders" [1]
        [exUnreadable]).calls[0]? =
      some ⟨outboundRequest goStdlib exScripted [1] "fn-a",
        DoResult.ok ⟨404, [("Content-Length", ["12"])],
          ReadResult.fail (GoError.errorString "unexpected EOF")⟩⟩ ∧
    ∃ f, (exSingle.Match "orders")[0]? = some f ∧
      (InvokeWithContext goStdlib exScripted (Context.derived 1 false) exSingle "orders" [1]
          [exUnreadable]).Responses[0 + (if ([1] : Bytes).length = 0 then 1 else 0)]? =
        some { Context := Context.derived 1 false, Body := none, Header := none,
               Status := 503, Error := none, Topic := "orders", Function := f } :=
  ⟨by decide,
   (C9_body_read_failure goStdlib exScripted (Context.derived 1 false) exSingle "orders" [1]
     [exUnreadable]).2 0 (outboundRequest goStdlib exScripted [1] "fn-a") 404
     [("Content-Length", ["12"])] (GoError.errorString "unexpected EOF") (by decide)⟩

/-- C10. In every response sent, the header is present exactly when the body is
present. -/
theorem C10_header_iff_body {σ : Type} (lib : Stdlib) (i : Invoker σ) (ctx : Context)
    (tm : TopicMap) (topic : String) (message : Bytes) (w : σ) :
    ∀ r ∈ (InvokeWithContext lib i ctx tm topic message w).Responses,
      (r.Header ≠ none ↔ r.Body ≠ none) := by
  intro r hr
  obtain ⟨n, hn⟩ := List.getElem?_of_mem hr
  rcases InvokeWithContext_origin_of_response lib i ctx tm topic message w n r hn with
    ⟨_, _, he⟩ | ⟨k, f, c, _, _, _, he⟩
  · subst he
    simp
  · subst he
    rcases c with ⟨req, d⟩
    cases d with
    | err e => simp [emitted, resultOf]
    | ok res =>
      rcases res with ⟨st, hd, body⟩
      cases body <;> simp [emitted, resultOf]

/-- C10 at an empty message and three calls: one refused, one answered 204 without
content, one whose body cannot be read. Of the four responses only the one for
the 204 has a header, and it has a body, the empty one. -/
theorem C10_header_iff_body_witness :
    (InvokeWithContext goStdlib exScripted (Context.derived 1 false) exThree "orders" []
        [exRefused, exNoContent, exUnreadable]).Responses.map
        (fun r => (r.Header.isSome, r.Body)) =
      [(false, none), (false, none), (true, some []), (false, none)] ∧
    (exNoContentResponse.Header ≠ none ↔ exNoContentResponse.Body ≠ none) :=
  ⟨by decide,
   C10_header_iff_body goStdlib exScripted (Context.derived 1 false) exThree "orders" []
     [exRefused, exNoContent, exUnreadable] exNoContentResponse (by decide)⟩

end Types
